import Mathlib

/-!
Shallow embedding of `src/model/base_model.py` (the Amoer schema-driven
model layer).  Python runtime values are modelled by the inductive `PyVal`;
the constrained value wrappers (`LimitedValueModel` and its subclasses)
are `PyVal` constructors carrying their mutable state, so that the
in-place mutation performed by `apply` becomes explicit state passing.
Class-level information (`DATA_DEFAULT_FORMAT`, `STRICT_MODE`,
`EQUALS_IGNORE_KEYS`, the cached reserved-name list `_keys_limited`, and
the inheritance facts the `isinstance` checks need) lives in a `ClassCfg`
looked up by class name in a `ClassTable`.  Operations that mutate
class-level state in Python (`_check_value`'s apply branch,
`load_db_data` loading into a shared descriptor instance) thread the
`ClassTable` through and return the updated table.
-/

namespace Amoer

/-- Reference to a Python class usable in `isinstance` checks and as a
schema descriptor: either a model class (by name) or a builtin type. -/
inductive PrimTy where
  | intT | strT | boolT | listT | dictT
deriving DecidableEq, Repr

inductive VCls where
  | cls (c : String)
  | prim (t : PrimTy)
deriving DecidableEq, Repr

/-- Python runtime values as the model layer sees them.  The `w*`
constructors are the value-wrapper objects of `base_model.py` together
with their instance state:
`wLimited` is `LimitedValueModel` (stored `default_value`),
`wComplex` is `ComplexValueModel` (`default_value`, `required`),
`wNumberBetween` is `NumberBetweenValueModel` (`default_value`, `min`, `max`),
`wListBetween` is `ListBetweenValueModel` (`default_value`, `value_list`),
`wListComplex` is `ListComplexValueModel`
  (`default_value`, `required`, `need_size`, `value_cls`, `support_dict_value`),
`wDbMarker` is `BaseDBValueModel` (no state). -/
inductive PyVal where
  | int (n : Int)
  | str (s : String)
  | bool (b : Bool)
  | none
  | list (xs : List PyVal)
  | dict (kvs : List (String × PyVal))
  | typeRef (c : VCls)
  | record (c : String) (fields : List (String × PyVal))
  | wLimited (dv : PyVal)
  | wComplex (dv : PyVal) (required : Bool)
  | wNumberBetween (dv : PyVal) (lo hi : Int)
  | wListBetween (dv : PyVal) (vlist : List PyVal)
  | wListComplex (dv : PyVal) (required needSize : Bool) (vcls : Option VCls) (support : Bool)
  | wDbMarker

/-- Exceptions raised by `base_model.py` (messages elided). -/
inductive Err where
  | valueError
  | assertionError
  | runtimeError
  | typeError
  | attributeError
deriving DecidableEq, Repr

/-- Runtime type of a value, as compared by `type(a) == type(b)`.
Every class object has type `type` (the metaclass), record instances have
their own class as type, and each wrapper class is its own type. -/
inductive TypeTag where
  | intT | strT | boolT | noneT | listT | dictT | typeT
  | recordT (c : String)
  | wLimitedT | wComplexT | wNumberBetweenT | wListBetweenT | wListComplexT | wDbMarkerT
deriving DecidableEq, Repr

def typeOf : PyVal → TypeTag
  | .int _ => .intT
  | .str _ => .strT
  | .bool _ => .boolT
  | .none => .noneT
  | .list _ => .listT
  | .dict _ => .dictT
  | .typeRef _ => .typeT
  | .record c _ => .recordT c
  | .wLimited _ => .wLimitedT
  | .wComplex _ _ => .wComplexT
  | .wNumberBetween _ _ _ => .wNumberBetweenT
  | .wListBetween _ _ => .wListBetweenT
  | .wListComplex _ _ _ _ _ => .wListComplexT
  | .wDbMarker => .wDbMarkerT

/-- Class-level data of one `BaseDataModel` subclass:
`schema` is `DATA_DEFAULT_FORMAT` (insertion-ordered), `strict` is
`STRICT_MODE`, `ignoreKeys` is `EQUALS_IGNORE_KEYS`, `keysLimited` is the
cached `dir(cls)` reserved-name list, `isMGDB` records whether the class
derives `BaseMGDBDataModel`, and `ancestors` lists the class names of the
method-resolution order (the class itself included) for `isinstance`. -/
structure ClassCfg where
  schema : List (String × PyVal)
  strict : Bool
  ignoreKeys : List String
  keysLimited : List String
  isMGDB : Bool
  ancestors : List String

def ClassTable := List (String × ClassCfg)

def defaultCfg : ClassCfg := ⟨[], false, [], [], false, []⟩

def getCfg (tbl : ClassTable) (c : String) : ClassCfg :=
  (List.lookup c (tbl : List (String × ClassCfg))).getD defaultCfg

/-- Python dict assignment `d[k] = v`: replace in place if the key exists,
else append (insertion order preserved). -/
def setVal : List (String × PyVal) → String → PyVal → List (String × PyVal)
  | [], k, v => [(k, v)]
  | (k₀, v₀) :: rest, k, v =>
    if k₀ == k then (k₀, v) :: rest else (k₀, v₀) :: setVal rest k v

/-- In-place mutation of the class-level `DATA_DEFAULT_FORMAT` entry of
class `cls` at key `k` (used where Python mutates a descriptor object that
lives in the shared class dict). -/
def setSchemaVal (tbl : ClassTable) (cls k : String) (d : PyVal) : ClassTable :=
  (tbl : List (String × ClassCfg)).map
    (fun p => if p.1 == cls then (p.1, { p.2 with schema := setVal p.2.schema k d }) else p)

/-- Stored `default_value` of a `LimitedValueModel`-family wrapper. -/
def stored? : PyVal → Option PyVal
  | .wLimited d => some d
  | .wComplex d _ => some d
  | .wNumberBetween d _ _ => some d
  | .wListBetween d _ => some d
  | .wListComplex d _ _ _ _ => some d
  | _ => Option.none

/-- `isinstance(v, LimitedValueModel)`. -/
def isLim (v : PyVal) : Bool := (stored? v).isSome

/-- `isinstance(v, BaseValueModel)` (the `LimitedValueModel` family plus
the stateless `BaseDBValueModel` marker). -/
def isWrapperAny (v : PyVal) : Bool :=
  isLim v || (match v with | .wDbMarker => true | _ => false)

def isNoneV : PyVal → Bool
  | .none => true
  | _ => false

def isDictV : PyVal → Bool
  | .dict _ => true
  | _ => false

def isRecordV : PyVal → Bool
  | .record _ _ => true
  | _ => false

def isTypeRefV : PyVal → Bool
  | .typeRef _ => true
  | _ => false

def isListV : PyVal → Bool
  | .list _ => true
  | _ => false

/-- Repeatedly unwrap a `LimitedValueModel`-family wrapper to the plain
value its `value()` chain bottoms out at (used for the `==` proxy
semantics of `LimitedValueModel.__eq__`). -/
def deepStored : PyVal → PyVal
  | .wLimited d => deepStored d
  | .wComplex d _ => deepStored d
  | .wNumberBetween d _ _ => deepStored d
  | .wListBetween d _ => deepStored d
  | .wListComplex d _ _ _ _ => deepStored d
  | v => v

theorem deepStored_sizeOf_le (v : PyVal) : sizeOf (deepStored v) ≤ sizeOf v := by
  cases v with
  | wLimited d => have hdle := deepStored_sizeOf_le d; simp only [deepStored]; simp_arith; omega
  | wComplex d r => have hdle := deepStored_sizeOf_le d; simp only [deepStored]; simp_arith; omega
  | wNumberBetween d lo hi => have hdle := deepStored_sizeOf_le d; simp only [deepStored]; simp_arith; omega
  | wListBetween d l => have hdle := deepStored_sizeOf_le d; simp only [deepStored]; simp_arith; omega
  | wListComplex d r n vc s => have hdle := deepStored_sizeOf_le d; simp only [deepStored]; simp_arith; omega
  | _ => simp [deepStored]
termination_by sizeOf v

theorem deepStored_sizeOf_lt (v : PyVal) (h : isLim v = true) :
    sizeOf (deepStored v) < sizeOf v := by
  cases v with
  | wLimited d => have hdle := deepStored_sizeOf_le d; simp only [deepStored]; simp_arith; omega
  | wComplex d r => have hdle := deepStored_sizeOf_le d; simp only [deepStored]; simp_arith; omega
  | wNumberBetween d lo hi => have hdle := deepStored_sizeOf_le d; simp only [deepStored]; simp_arith; omega
  | wListBetween d l => have hdle := deepStored_sizeOf_le d; simp only [deepStored]; simp_arith; omega
  | wListComplex d r n vc s => have hdle := deepStored_sizeOf_le d; simp only [deepStored]; simp_arith; omega
  | _ => simp [isLim, stored?] at h

theorem lookup_sizeOf_lt {β : Type} [SizeOf β] :
    ∀ (l : List (String × β)) (k : String) (v : β),
      List.lookup k l = some v → sizeOf v < sizeOf l := by
  intro l
  induction l with
  | nil => intro k v h; simp [List.lookup] at h
  | cons p rest ih =>
    intro k v h
    obtain ⟨a, b⟩ := p
    simp only [List.lookup] at h
    by_cases hk : k == a
    · simp [hk] at h
      subst h
      simp
      omega
    · simp [hk] at h
      have hih := ih k v h
      simp
      omega

/-!
Python `==`.  `LimitedValueModel.__eq__` delegates to
`self.value().__eq__(other)`; when both operands are wrappers every
`__eq__` in the chain returns `NotImplemented` and the comparison falls
back to object identity (distinct objects, hence `False`).  When exactly
one operand is a wrapper it compares the wrapper's resolved stored value
against the plain operand.  (The effectful resolve of
`ComplexValueModel.value` on a required-falsy wrapper, which would raise
inside `==`, is not reachable from the call sites modelled here; the
stored value is compared directly.)  Plain values compare structurally,
with `bool` comparing equal to the corresponding `int` as in Python;
objects without a custom `__eq__` (records, type objects other than by
identity, the `BaseDBValueModel` marker) compare by identity, which is
`False` between the distinct objects the walkers compare. -/
mutual

def pybeq (a b : PyVal) : Bool :=
  if h : isLim a then
    if isLim b then false else pybeq (deepStored a) b
  else if h₂ : isLim b then pybeq a (deepStored b)
  else
    match a, b with
    | .int m, .int n => m == n
    | .int m, .bool c => m == (if c then 1 else 0)
    | .bool c, .int n => (if c then (1 : Int) else 0) == n
    | .bool c, .bool d => c == d
    | .str s, .str t => s == t
    | .none, .none => true
    | .list xs, .list ys => pyeqList xs ys
    | .dict xs, .dict ys => xs.length == ys.length && pyeqDict xs ys
    | .typeRef c, .typeRef d => c == d
    | _, _ => false
termination_by sizeOf a + sizeOf b
decreasing_by
  · have hda := deepStored_sizeOf_lt a h; omega
  · have hdb2 := deepStored_sizeOf_lt b h₂; omega
  all_goals simp_wf <;> omega

def pyeqList : List PyVal → List PyVal → Bool
  | [], [] => true
  | x :: xs, y :: ys => pybeq x y && pyeqList xs ys
  | _, _ => false
termination_by xs ys => sizeOf xs + sizeOf ys
decreasing_by all_goals simp_wf <;> omega

def pyeqDict (xs ys : List (String × PyVal)) : Bool :=
  match xs with
  | [] => true
  | (k, pv) :: rest =>
    (match h : List.lookup k ys with
     | some v => pybeq pv v
     | Option.none => false) && pyeqDict rest ys
termination_by sizeOf xs + sizeOf ys
decreasing_by
  all_goals simp_wf
  all_goals try omega
  all_goals (have hlv := lookup_sizeOf_lt ys k v h; omega)

end

/-- Python list membership `x in l` (CPython compares `item == x`, item on
the left). -/
def pyMem (l : List PyVal) (x : PyVal) : Bool := l.any (fun e => pybeq e x)

/-- Python truthiness of non-wrapper values. -/
def truthyPlain : PyVal → Bool
  | .int n => n != 0
  | .str s => s != ""
  | .bool b => b
  | .none => false
  | .list xs => !xs.isEmpty
  | .dict kvs => !kvs.isEmpty
  | _ => true

/-- Numeric view used by the chained comparison in
`NumberBetweenValueModel.apply` (`bool` counts as `int` in Python). -/
def toNumQ : PyVal → Option Int
  | .int n => some n
  | .bool b => some (if b then 1 else 0)
  | _ => Option.none

/-- The `apply` operation of each wrapper, returning the updated wrapper
state together with the value `apply` returns.  Source:
`LimitedValueModel.apply` (also inherited by `ComplexValueModel` and
`ListComplexValueModel`) replaces `default_value`;
`NumberBetweenValueModel.apply` tests `self.min <= value <= self.min`
(the source's own bound, `max` unused) and raises `ValueError` otherwise;
`ListBetweenValueModel.apply` appends to (or starts) the accumulated list
when `value in self.value_list`, else raises `ValueError`;
`BaseDBValueModel.apply` evaluates `NotImplemented("...")`, a `TypeError`;
calling `.apply` on a non-wrapper is an `AttributeError`. -/
def applyW : PyVal → PyVal → Except Err (PyVal × PyVal)
  | .wLimited _, v => .ok (.wLimited v, v)
  | .wComplex _ r, v => .ok (.wComplex v r, v)
  | .wListComplex _ r ns vc sp, v => .ok (.wListComplex v r ns vc sp, v)
  | .wNumberBetween dv lo hi, v =>
    match toNumQ v with
    | some n => if lo ≤ n ∧ n ≤ lo then .ok (.wNumberBetween v lo hi, v) else .error .valueError
    | Option.none => .error .typeError
  | .wListBetween dv vl, v =>
    if !vl.isEmpty && pyMem vl v then
      match dv with
      | .list xs => .ok (.wListBetween (.list (xs ++ [v])) vl, v)
      | _ => .ok (.wListBetween (.list [v]) vl, v)
    else .error .valueError
  | .wDbMarker, _ => .error .typeError
  | _, _ => .error .attributeError

/-- `isinstance(v, c)` for the class references the model needs (`bool`
is a subclass of `int`; record instances are instances of every class in
their MRO). -/
def isinstanceV (tbl : ClassTable) (v : PyVal) : VCls → Bool
  | .cls c =>
    match v with
    | .record rc _ => ((getCfg tbl rc).ancestors).contains c
    | _ => false
  | .prim t =>
    match t, v with
    | .intT, .int _ => true
    | .intT, .bool _ => true
    | .boolT, .bool _ => true
    | .strT, .str _ => true
    | .listT, .list _ => true
    | .dictT, .dict _ => true
    | _, _ => false

/-- Dispatch case 4 of `__setattr__`:
`type(_value) == type and isinstance(value, _value)`. -/
def typeRefMatch (tbl : ClassTable) (d v : PyVal) : Bool :=
  match d with
  | .typeRef vc => isinstanceV tbl v vc
  | _ => false

abbrev Fields := List (String × PyVal)

/-- The body of `BaseDataModel.__setattr__` after the reserved-name and
strict-mode guards, dispatching on the schema descriptor
`d = DATA_DEFAULT_FORMAT.get(key)` (so a `None`-valued descriptor and a
missing key both arrive here as `.none`). -/
def pysetattrD (tbl : ClassTable) (fields : Fields) (key : String) (v d : PyVal) :
    Except Err Fields :=
  if isNoneV d then .ok (setVal fields key v)
  else if typeOf d = typeOf v then .ok (setVal fields key v)
  else if typeRefMatch tbl d v then .ok (setVal fields key v)
  else if isDictV d && isRecordV v then .ok (setVal fields key v)
  else if isLim d then
    match List.lookup key fields with
    | some w => (applyW w v).map (fun p => setVal fields key p.1)
    | Option.none => .error .attributeError
  else if isWrapperAny d then .ok (setVal fields key v)
  else .ok fields

/-- `BaseDataModel.__setattr__`: reserved-name guard
(`_check_key_format`), strict-mode guard, then descriptor dispatch. -/
def pysetattr (tbl : ClassTable) (cls : String) (fields : Fields) (key : String) (v : PyVal) :
    Except Err Fields :=
  let cfg := getCfg tbl cls
  if cfg.keysLimited.contains key then .error .runtimeError
  else if cfg.strict && (List.lookup key cfg.schema).isNone then .error .runtimeError
  else pysetattrD tbl fields key v ((List.lookup key cfg.schema).getD .none)

/-- `BaseDataModel.__init__`: check the schema keys against the reserved
names, deep-copy `DATA_DEFAULT_FORMAT` into the instance dict (`pre_new`
is the identity in the base class), then route each keyword override
through `__setattr__` via `update`. -/
def constructFields (tbl : ClassTable) (cls : String) (kwargs : List (String × PyVal)) :
    Except Err Fields :=
  let cfg := getCfg tbl cls
  if cfg.schema.any (fun p => cfg.keysLimited.contains p.1) then .error .runtimeError
  else kwargs.foldlM (fun fs kv => pysetattr tbl cls fs kv.1 kv.2) cfg.schema

/-- Python `sorted` on a list of strings (ascending, as used for the
key-set comparisons). -/
def pyinsert (x : String) : List String → List String
  | [] => [x]
  | y :: ys => if x ≤ y then x :: y :: ys else y :: pyinsert x ys

def pysorted : List String → List String
  | [] => []
  | x :: xs => pyinsert x (pysorted xs)

/-- `isinstance(self.value_cls(), BaseDataModel)` in
`ListComplexValueModel.value`: construct an instance of `value_cls`
(construction errors propagate) and test it against `BaseDataModel`. -/
def isVclsDataModel (tbl : ClassTable) : VCls → Except Err Bool
  | .cls c => do
    let _ ← constructFields tbl c []
    pure (((getCfg tbl c).ancestors).contains "BaseDataModel")
  | .prim _ => pure false

/-- The per-element loop of `ListComplexValueModel.value`.  An element
that is an instance of `value_cls` is accepted and the loop continues; a
`dict` element whose `value_cls` is a record class either returns the
whole list early (`support_dict_value`, or a matching key set in strict
mode, or the `s1 in s0` membership in non-strict mode — note `s1` is a
list and `s0`'s elements are strings, so that membership compares a list
against strings) or hits `assert False`; anything else hits
`assert False`. -/
def listElemsCheck (tbl : ClassTable) (vc : VCls) (support : Bool) :
    List PyVal → Except Err Unit
  | [] => .ok ()
  | k :: rest =>
    if isinstanceV tbl k vc then listElemsCheck tbl vc support rest
    else
      match k with
      | .dict kvs => do
        let dm ← isVclsDataModel tbl vc
        if dm then
          match vc with
          | .cls c =>
            if support then .ok ()
            else
              let s0 := pysorted (kvs.map (fun p => p.1))
              let s1 := pysorted (((getCfg tbl c).schema).map (fun p => p.1))
              if (getCfg tbl c).strict then
                if s0 = s1 then .ok () else .error .assertionError
              else
                if pyMem (s0.map PyVal.str) (.list (s1.map PyVal.str)) then .ok ()
                else .error .assertionError
          | .prim _ => .error .assertionError
        else .error .assertionError
      | _ => .error .assertionError

/-!
The `value()` operation (the spec's `resolve()`), and Python truthiness
including the `LimitedValueModel.__bool__` proxy (which is
`bool(self.value())`).  `ComplexValueModel.value` asserts
`self.default_value` is truthy when `required` is set;
`ListComplexValueModel.value` then asserts the stored value is a list,
checks `need_size`, and runs the per-element loop;
`LimitedValueModel.value` (also inherited by `BetweenValueModel`,
`NumberBetweenValueModel`, `ListBetweenValueModel`) returns the stored
value; `BaseDBValueModel.value` evaluates `NotImplemented("...")`, a
`TypeError`.  Calling `value()` on a non-wrapper (unreachable from the
walkers) is mapped to `TypeError`. -/
mutual

def valueW (tbl : ClassTable) (w : PyVal) : Except Err PyVal :=
  match w with
  | .wLimited d => .ok d
  | .wComplex d req => do
    if req then
      let b ← truthyE tbl d
      if b then pure d else throw .assertionError
    else pure d
  | .wNumberBetween d _ _ => .ok d
  | .wListBetween d _ => .ok d
  | .wListComplex d req needSize vc support => do
    let tmp ← (if req then do
        let b ← truthyE tbl d
        if b then pure d else throw Err.assertionError
      else pure d)
    match tmp with
    | .list xs => do
      if req && needSize && xs.isEmpty then throw Err.assertionError
      if vc.isSome && !xs.isEmpty then
        match vc with
        | some c => do
          let _ ← listElemsCheck tbl c support xs
          pure (PyVal.list xs)
        | Option.none => pure (PyVal.list xs)
      else pure (PyVal.list xs)
    | _ => throw Err.assertionError
  | .wDbMarker => .error .typeError
  | _ => .error .typeError
termination_by (sizeOf w, 0)

def truthyE (tbl : ClassTable) (v : PyVal) : Except Err Bool :=
  match v with
  | .wLimited d => truthyE tbl d
  | .wComplex d req => do
    let b ← truthyE tbl d
    if req && !b then throw Err.assertionError else pure b
  | .wNumberBetween d _ _ => truthyE tbl d
  | .wListBetween d _ => truthyE tbl d
  | .wListComplex d req ns vc sp => do
    let r ← valueW tbl (.wListComplex d req ns vc sp)
    pure (truthyPlain r)
  | v => pure (truthyPlain v)
termination_by (sizeOf v, 1)

end

def optErr {α : Type} : Except Err α → Option Err
  | .ok _ => Option.none
  | .error e => some e

/-- Leaf case of `BaseDataModel._check_value` (a value that is not a type
object, record, list or dict).  If the walk key `k` is itself a key of
the walking class's `DATA_DEFAULT_FORMAT` whose descriptor is a
`BaseValueModel`, the source calls `apply(v)` on that class-level
descriptor, mutating the shared schema; otherwise a
`LimitedValueModel` value is resolved via `value()` and anything else is
accepted. -/
def checkLeaf (tbl : ClassTable) (cls k : String) (v : PyVal) : ClassTable × Option Err :=
  match List.lookup k (getCfg tbl cls).schema with
  | some d =>
    if isWrapperAny d then
      match applyW d v with
      | .ok p => (setSchemaVal tbl cls k p.1, Option.none)
      | .error e => (tbl, some e)
    else if isLim v then (tbl, optErr (valueW tbl v))
    else (tbl, Option.none)
  | Option.none =>
    if isLim v then (tbl, optErr (valueW tbl v)) else (tbl, Option.none)

/-!
`BaseDataModel._check_value`, with the walk keys built exactly as the
source builds them (`"k(Cls)"` for nested records, `"k[i]"` for list
elements, `"k.f"` for dict entries).  A type object is a `ValueError`;
the dict of a nested record is walked under the nested record's own
class.  The returned table reflects any `apply` mutations of class-level
descriptors; an error aborts the walk. -/
mutual

def checkValue (tbl : ClassTable) (cls k : String) (v : PyVal) : ClassTable × Option Err :=
  match v with
  | .typeRef _ => (tbl, some .valueError)
  | .record c flds => checkValueDict tbl c (k ++ "(" ++ c ++ ")") flds
  | .list xs => checkValueList tbl cls k 0 xs
  | .dict kvs => checkValueDict tbl cls k kvs
  | v => checkLeaf tbl cls k v
termination_by sizeOf v

def checkValueList (tbl : ClassTable) (cls k : String) (i : Nat) :
    List PyVal → ClassTable × Option Err
  | [] => (tbl, Option.none)
  | x :: rest =>
    match checkValue tbl cls (k ++ "[" ++ toString i ++ "]") x with
    | (tbl₁, Option.none) => checkValueList tbl₁ cls k (i + 1) rest
    | (tbl₁, some e) => (tbl₁, some e)
termination_by xs => sizeOf xs

def checkValueDict (tbl : ClassTable) (cls k : String) :
    List (String × PyVal) → ClassTable × Option Err
  | [] => (tbl, Option.none)
  | (f, v) :: rest =>
    match checkValue tbl cls (k ++ "." ++ f) v with
    | (tbl₁, Option.none) => checkValueDict tbl₁ cls k rest
    | (tbl₁, some e) => (tbl₁, some e)
termination_by kvs => sizeOf kvs

end

/-- `BaseDataModel.check`: `_check_value("self", self.__dict__)` (the
instance dict immediately takes the dict branch of the walk). -/
def check (tbl : ClassTable) (cls : String) (fields : Fields) : ClassTable × Option Err :=
  checkValueDict tbl cls "self" fields

/-!
`BaseDataModel._equals`.  A record node requires `b.keys()` (an
`AttributeError` unless `b` is a mapping), asserts the two sorted key
lists are equal (the ignore list plays no part in this key-set check),
then recurses per field, skipping fields named in the record class's
`EQUALS_IGNORE_KEYS`.  Non-record nodes assert `type(a) == type(b)`,
recurse through dicts (exact key sets) and lists (equal lengths), and
compare leaves with `==`. -/
mutual

def eqRec (tbl : ClassTable) (text : String) (a b : PyVal) : Except Err Bool :=
  match a with
  | .record c flds =>
    match b with
    | .dict kvs =>
      if pysorted (flds.map (fun p => p.1)) = pysorted (kvs.map (fun p => p.1)) then
        eqRecFields tbl text c flds kvs
      else .error .assertionError
    | _ => .error .attributeError
  | a =>
    if typeOf a = typeOf b then
      match a, b with
      | .dict akvs, .dict bkvs =>
        if pysorted (akvs.map (fun p => p.1)) = pysorted (bkvs.map (fun p => p.1)) then
          eqRecDict tbl text akvs bkvs
        else .error .assertionError
      | .list axs, .list bxs =>
        if axs.length = bxs.length then eqRecList tbl text 0 axs bxs
        else .error .assertionError
      | a, b => .ok (pybeq a b)
    else .error .assertionError
termination_by sizeOf a

def eqRecFields (tbl : ClassTable) (text c : String) :
    List (String × PyVal) → List (String × PyVal) → Except Err Bool
  | [], _ => .ok true
  | (k, v) :: rest, kvs =>
    if ((getCfg tbl c).ignoreKeys).contains k then eqRecFields tbl text c rest kvs
    else do
      let r ← eqRec tbl (text ++ "[" ++ k ++ "]") v ((List.lookup k kvs).getD .none)
      if r then eqRecFields tbl text c rest kvs else pure false
termination_by flds _ => sizeOf flds

def eqRecDict (tbl : ClassTable) (text : String) :
    List (String × PyVal) → List (String × PyVal) → Except Err Bool
  | [], _ => .ok true
  | (k, v) :: rest, kvs => do
    let r ← eqRec tbl (text ++ "[" ++ k ++ "]") v ((List.lookup k kvs).getD .none)
    if r then eqRecDict tbl text rest kvs else pure false
termination_by akvs _ => sizeOf akvs

def eqRecList (tbl : ClassTable) (text : String) (i : Nat) :
    List PyVal → List PyVal → Except Err Bool
  | [], _ => .ok true
  | x :: xs, ys => do
    let r ← eqRec tbl (text ++ "[" ++ toString i ++ "]") x (ys.headD .none)
    if r then eqRecList tbl text (i + 1) xs ys.tail else pure false
termination_by xs _ => sizeOf xs

end

/-- `BaseDataModel.equals`: asserts the comparison target is a mapping,
then runs `_equals("self", self, data)`. -/
def pyequals (tbl : ClassTable) (cls : String) (fields : Fields) (data : PyVal) :
    Except Err Bool :=
  match data with
  | .dict _ => eqRec tbl "self" (.record cls fields) data
  | _ => .error .assertionError

/-!
`BaseMGDBDataModel.load_db_data`.  The document must be a mapping
(`ValueError` otherwise).  The loop iterates the class-level
`DATA_DEFAULT_FORMAT`; for every key present in the document:
a descriptor that is an instance of `BaseMGDBDataModel` is itself
recursively loaded in place — that object lives in the shared class
schema, so the mutation is written back to the class table — and then
assigned; the descriptor that is the class object `BaseMGDBDataModel`
itself (`v is BaseMGDBDataModel` is an identity test, so no subclass
matches) is freshly constructed, recursively loaded and assigned; any
other descriptor leads to a plain `setattr` of the raw document value.
Mutations performed before an error persist (the Python exception
propagates after they happened). -/
mutual

def loadDbData (tbl : ClassTable) (cls : String) (fields : Fields) (dbValue : PyVal)
    (strict : Bool) : ClassTable × Fields × Option Err :=
  match hdb : dbValue with
  | .dict kvs => loadItems tbl cls fields ((getCfg tbl cls).schema) kvs strict
  | _ => (tbl, fields, some .valueError)
termination_by (sizeOf dbValue, 0)
decreasing_by
  all_goals first
    | (apply Prod.Lex.right; simp only [List.length_cons]; omega)
    | (apply Prod.Lex.left; have hlv := lookup_sizeOf_lt kvs k dv hlk; omega)
    | (apply Prod.Lex.left; simp only [PyVal.dict.sizeOf_spec]; omega)

def loadItems (tbl : ClassTable) (cls : String) (fields : Fields)
    (items : List (String × PyVal)) (kvs : List (String × PyVal)) (strict : Bool) :
    ClassTable × Fields × Option Err :=
  match items with
  | [] => (tbl, fields, Option.none)
  | (k, v) :: rest =>
    match hlk : List.lookup k kvs with
    | Option.none => loadItems tbl cls fields rest kvs strict
    | some dv =>
      match v with
      | .record c subf =>
        if ((getCfg tbl c).ancestors).contains "BaseMGDBDataModel" then
          match loadDbData tbl c subf dv strict with
          | (tbl₁, subf₁, err) =>
            let tbl₂ := setSchemaVal tbl₁ cls k (.record c subf₁)
            match err with
            | some e => (tbl₂, fields, some e)
            | Option.none =>
              match pysetattr tbl₂ cls fields k (.record c subf₁) with
              | .ok fs => loadItems tbl₂ cls fs rest kvs strict
              | .error e => (tbl₂, fields, some e)
        else
          match pysetattr tbl cls fields k dv with
          | .ok fs => loadItems tbl cls fs rest kvs strict
          | .error e => (tbl, fields, some e)
      | .typeRef (.cls n) =>
        if n = "BaseMGDBDataModel" then
          match constructFields tbl n [] with
          | .error e => (tbl, fields, some e)
          | .ok fresh =>
            match loadDbData tbl n fresh dv strict with
            | (tbl₁, fresh₁, err) =>
              match err with
              | some e => (tbl₁, fields, some e)
              | Option.none =>
                match pysetattr tbl₁ cls fields k (.record n fresh₁) with
                | .ok fs => loadItems tbl₁ cls fs rest kvs strict
                | .error e => (tbl₁, fields, some e)
        else
          match pysetattr tbl cls fields k dv with
          | .ok fs => loadItems tbl cls fs rest kvs strict
          | .error e => (tbl, fields, some e)
      | _ =>
        match pysetattr tbl cls fields k dv with
        | .ok fs => loadItems tbl cls fs rest kvs strict
        | .error e => (tbl, fields, some e)
termination_by (sizeOf kvs, items.length + 1)
decreasing_by
  all_goals first
    | (apply Prod.Lex.right; simp only [List.length_cons]; omega)
    | (apply Prod.Lex.left; have hlv := lookup_sizeOf_lt kvs k dv hlk; omega)
    | (apply Prod.Lex.left; simp only [PyVal.dict.sizeOf_spec]; omega)

end

/-- Element-record classes for the `ListConstrained` scenario of C4:
`Person` has the permissive (non-strict) schema `{"name": ""}` and
`PersonS` the same schema in strict mode. -/
def tblC4 : ClassTable :=
  [("Person", ⟨[("name", .str "")], false, [], [], false, ["Person", "BaseDataModel"]⟩),
   ("PersonS", ⟨[("name", .str "")], true, [], [], false, ["PersonS", "BaseDataModel"]⟩)]

/-- Classes for the document-load scenarios.  `C` declares a nested
`BaseMGDBDataModel` *instance* descriptor (an instance of `D`); `P`
declares a nested-record *type reference* to the proper subclass
`ChildMG`; `Q` declares a type reference to the base class
`BaseMGDBDataModel` itself. -/
def mgdbAnc (c : String) : List String :=
  [c, "BaseMGDBDataModel", "BaseDBDataModel", "BaseExtraDictDataModel", "BaseDataModel"]

def tblLoad : ClassTable :=
  [("C", ⟨[("child", .record "D" [("x", .int 0)])], false, [], [], true, mgdbAnc "C"⟩),
   ("D", ⟨[("x", .int 0)], false, [], [], true, mgdbAnc "D"⟩),
   ("P", ⟨[("child", .typeRef (.cls "ChildMG"))], false, [], [], true, mgdbAnc "P"⟩),
   ("ChildMG", ⟨[("x", .int 0)], false, [], [], true, mgdbAnc "ChildMG"⟩),
   ("Q", ⟨[("child", .typeRef (.cls "BaseMGDBDataModel"))], false, [], [], true, mgdbAnc "Q"⟩),
   ("BaseMGDBDataModel", ⟨[], false, [], [], true,
      ["BaseMGDBDataModel", "BaseDBDataModel", "BaseExtraDictDataModel", "BaseDataModel"]⟩)]

/-- Record class for the comparison scenario of C5: fields `a` and `t`,
with `EQUALS_IGNORE_KEYS = ["t"]`. -/
def tblC5 : ClassTable :=
  [("R", ⟨[("a", .int 0), ("t", .int 0)], false, ["t"], [], false, ["R", "BaseDataModel"]⟩)]

/-- A walk key produced under the top-level key `"self"`: every key
`_check_value` passes below the root extends `"self"`. -/
def FromSelf (k : String) : Prop := ∃ s : String, k = "self" ++ s

/-- No class's `DATA_DEFAULT_FORMAT` has a key extending `"self"`, so no
composed walk key can collide with a schema key. -/
def NoSelfK (tbl : ClassTable) : Prop :=
  ∀ c : String, ∀ p ∈ (getCfg tbl c).schema, ∀ s : String, p.1 ≠ "self" ++ s

/-- Class whose schema carries, besides the wrapper field `x`, the
dotted key `"self.x"` bound to a wrapper — the name the validate walk
composes for the field `x`. -/
def tblC1x : ClassTable :=
  [("X", ⟨[("x", .wComplex (.int 0) true), ("self.x", .wLimited (.int 1))],
     false, [], [], false, ["X", "BaseDataModel"]⟩)]

def fieldsC1x : Fields :=
  [("x", .wComplex (.int 0) true), ("self.x", .wLimited (.int 1))]

/-- Ordinary wrapper-field class used to witness the amended C1. -/
def tblC1m : ClassTable :=
  [("M", ⟨[("x", .wComplex (.int 0) true)], false, [], [], false, ["M", "BaseDataModel"]⟩)]

def fieldsC1m : Fields := [("x", .wComplex (.int 0) true)]

/-!
Evaluation lemmas for `pybeq` at the leaf shapes the walkers reach. -/

theorem pybeq_int (m n : Int) : pybeq (.int m) (.int n) = (m == n) := by
  rw [pybeq.eq_def]; simp [isLim, stored?]

theorem pybeq_str (s t : String) : pybeq (.str s) (.str t) = (s == t) := by
  rw [pybeq.eq_def]; simp [isLim, stored?]

theorem pybeq_str_list (s : String) (xs : List PyVal) : pybeq (.str s) (.list xs) = false := by
  rw [pybeq.eq_def]; simp [isLim, stored?]

/-- C3: the spec claims `RangeNumeric.apply(v)` succeeds for every `v`
strictly between the declared bounds; the source's chained comparison
`self.min <= value <= self.min` tests the upper bound against `min`, so
for bounds `0 < 10` the strictly-interior value `5` raises `ValueError`
while the boundary value `0` (equal to `min`) is the only value stored.
The first conjunct evaluates the code at the claim's failing input; the
remaining conjuncts pin the surrounding behavior. -/
theorem c3_code_bug :
    applyW (.wNumberBetween .none 0 10) (.int 5) = .error .valueError ∧
    applyW (.wNumberBetween .none 0 10) (.int 0) =
      .ok (.wNumberBetween (.int 0) 0 10, .int 0) ∧
    applyW (.wNumberBetween .none 0 10) (.int 10) = .error .valueError := by
  refine ⟨rfl, rfl, rfl⟩

/-- C8: `RequiredConstrained` (`ComplexValueModel`): `apply(0)` stores `0`
(for either `required` flag), then `resolve()` fails with the
required-value assertion when `required=True` — zero, the empty string and
`None` are all rejected as falsy — and returns `0` when
`required=False`. -/
theorem c8_required_zero :
    (∀ d : PyVal, ∀ r : Bool,
        applyW (.wComplex d r) (.int 0) = .ok (.wComplex (.int 0) r, .int 0)) ∧
    valueW [] (.wComplex (.int 0) true) = .error .assertionError ∧
    valueW [] (.wComplex (.str "") true) = .error .assertionError ∧
    valueW [] (.wComplex .none true) = .error .assertionError ∧
    valueW [] (.wComplex (.int 0) false) = .ok (.int 0) := by
  refine ⟨fun d r => rfl, ?_, ?_, ?_, ?_⟩ <;> (simp [valueW, truthyE, truthyPlain]; rfl)

/-- C9: `EnumAccumulating` (`ListBetweenValueModel`) with the wrapper's
initial stored value not yet a list: three `apply` calls with values in
`value_list` leave the wrapper holding the 3-element list `[v1, v2, v3]`
in call order, and a fourth `apply` with a value outside `value_list`
raises `ValueError` (the source raises before touching `default_value`,
so the failed call produces no new wrapper state and the accumulated list
is untouched). -/
theorem c9_enum_accumulate (vl : List PyVal) (v1 v2 v3 v4 d : PyVal)
    (h1 : pyMem vl v1 = true) (h2 : pyMem vl v2 = true) (h3 : pyMem vl v3 = true)
    (h4 : pyMem vl v4 = false) (hd : isListV d = false) :
    applyW (.wListBetween d vl) v1 = .ok (.wListBetween (.list [v1]) vl, v1) ∧
    applyW (.wListBetween (.list [v1]) vl) v2 =
      .ok (.wListBetween (.list [v1, v2]) vl, v2) ∧
    applyW (.wListBetween (.list [v1, v2]) vl) v3 =
      .ok (.wListBetween (.list [v1, v2, v3]) vl, v3) ∧
    applyW (.wListBetween (.list [v1, v2, v3]) vl) v4 = .error .valueError := by
  have hne : vl.isEmpty = false := by
    cases vl with
    | nil => simp [pyMem] at h1
    | cons a l => simp [List.isEmpty]
  refine ⟨?_, ?_, ?_, ?_⟩
  · cases d <;> simp_all [applyW, isListV]
  · simp [applyW, hne, h2]
  · simp [applyW, hne, h3]
  · simp [applyW, hne, h4]

/-- C9 witness: a concrete run with `value_list = [1, 2]` and initial
stored value `None`. -/
theorem c9_enum_accumulate_witness :
    applyW (.wListBetween .none [.int 1, .int 2]) (.int 1) =
      .ok (.wListBetween (.list [.int 1]) [.int 1, .int 2], .int 1) ∧
    applyW (.wListBetween (.list [.int 1]) [.int 1, .int 2]) (.int 2) =
      .ok (.wListBetween (.list [.int 1, .int 2]) [.int 1, .int 2], .int 2) ∧
    applyW (.wListBetween (.list [.int 1, .int 2]) [.int 1, .int 2]) (.int 1) =
      .ok (.wListBetween (.list [.int 1, .int 2, .int 1]) [.int 1, .int 2], .int 1) ∧
    applyW (.wListBetween (.list [.int 1, .int 2, .int 1]) [.int 1, .int 2]) (.int 9) =
      .error .valueError := by
  have h := c9_enum_accumulate [.int 1, .int 2] (.int 1) (.int 2) (.int 1) (.int 9) .none
    (by simp [pyMem, pybeq_int]) (by simp [pyMem, pybeq_int]) (by simp [pyMem, pybeq_int])
    (by simp [pyMem, pybeq_int]) (by simp [isListV])
  exact h

/-- C6: assignment dispatch case 8.  On a non-strict record, when a
non-`None` descriptor exists for the field but none of dispatch cases 3–7
applies (same runtime type, matching type reference, nested-record
marker with a record value, `LimitedValueModel` wrapper, other
`BaseValueModel` wrapper), `__setattr__` silently drops the assignment:
no error is raised and the instance dict — the stored value of every
field — is returned unchanged. -/
theorem c6_silent_noop (tbl : ClassTable) (cls : String) (fields : Fields)
    (key : String) (v d : PyVal)
    (hres : ((getCfg tbl cls).keysLimited).contains key = false)
    (hstrict : (getCfg tbl cls).strict = false)
    (hd : (List.lookup key (getCfg tbl cls).schema).getD .none = d)
    (hnone : isNoneV d = false)
    (h3 : typeOf d ≠ typeOf v)
    (h4 : typeRefMatch tbl d v = false)
    (h5 : (isDictV d && isRecordV v) = false)
    (h6 : isLim d = false)
    (h7 : isWrapperAny d = false) :
    pysetattr tbl cls fields key v = .ok fields := by
  simp only [pysetattr, hres, hstrict, hd, Bool.false_and, Bool.false_eq_true, if_false,
    if_neg, pysetattrD]
  simp [hnone, h3, h4, h5, h6, h7]

/-- C6 witness: a literal integer descriptor assigned a string on a
permissive record is silently dropped. -/
theorem c6_silent_noop_witness :
    pysetattr [("M", ⟨[("age", .int 0)], false, [], [], false, ["M", "BaseDataModel"]⟩)]
        "M" [("age", .int 0)] "age" (.str "x") = .ok [("age", .int 0)] := by
  exact c6_silent_noop _ "M" _ "age" (.str "x") (.int 0)
    (by simp [getCfg, List.lookup]) (by simp [getCfg, List.lookup])
    (by simp [getCfg, List.lookup]) (by simp [isNoneV])
    (by simp [typeOf]) (by simp [typeRefMatch]) (by simp [isDictV])
    (by simp [isLim, stored?]) (by simp [isWrapperAny, isLim, stored?])

/-- C10: a schema entry whose declared value is `None` is retrieved by
`DATA_DEFAULT_FORMAT.get(key)` as `None`, exactly as a missing entry is,
so the assignment stores the raw value directly with no dispatch — in
strict mode as well, since the key is present in the schema — and on a
permissive record the result coincides with that of a record having no
descriptor for the field at all. -/
theorem c10_none_descriptor (tbl : ClassTable) (cls clsB : String) (fields : Fields)
    (key : String) (v : PyVal)
    (h1 : ((getCfg tbl cls).keysLimited).contains key = false)
    (h2 : List.lookup key (getCfg tbl cls).schema = some .none)
    (h1B : ((getCfg tbl clsB).keysLimited).contains key = false)
    (h2B : List.lookup key (getCfg tbl clsB).schema = Option.none)
    (h3B : (getCfg tbl clsB).strict = false) :
    pysetattr tbl cls fields key v = .ok (setVal fields key v) ∧
    pysetattr tbl clsB fields key v = .ok (setVal fields key v) ∧
    pysetattr tbl cls fields key v = pysetattr tbl clsB fields key v := by
  have h1m : key ∉ (getCfg tbl cls).keysLimited := by simpa using h1
  have h1Bm : key ∉ (getCfg tbl clsB).keysLimited := by simpa using h1B
  have ha : pysetattr tbl cls fields key v = .ok (setVal fields key v) := by
    simp [pysetattr, h1m, h2, pysetattrD, isNoneV]
  have hb : pysetattr tbl clsB fields key v = .ok (setVal fields key v) := by
    simp [pysetattr, h1Bm, h2B, h3B, pysetattrD, isNoneV]
  exact ⟨ha, hb, by rw [ha, hb]⟩

/-- C10 witness: a strict record with schema `{"f": None}` and a
permissive record with an empty schema both store the raw value
directly. -/
theorem c10_none_descriptor_witness :
    pysetattr [("A", ⟨[("f", .none)], true, [], [], false, ["A", "BaseDataModel"]⟩),
               ("B", ⟨[], false, [], [], false, ["B", "BaseDataModel"]⟩)]
        "A" [("f", .none)] "f" (.int 7) = .ok [("f", .int 7)] ∧
    pysetattr [("A", ⟨[("f", .none)], true, [], [], false, ["A", "BaseDataModel"]⟩),
               ("B", ⟨[], false, [], [], false, ["B", "BaseDataModel"]⟩)]
        "B" [("f", .none)] "f" (.int 7) = .ok [("f", .int 7)] := by
  have h := c10_none_descriptor
    [("A", ⟨[("f", .none)], true, [], [], false, ["A", "BaseDataModel"]⟩),
     ("B", ⟨[], false, [], [], false, ["B", "BaseDataModel"]⟩)]
    "A" "B" [("f", .none)] "f" (.int 7)
    (by simp [getCfg, List.lookup]) (by simp [getCfg, List.lookup])
    (by simp [getCfg, List.lookup]) (by simp [getCfg, List.lookup])
    (by simp [getCfg, List.lookup])
  refine ⟨?_, ?_⟩
  · rw [h.1]; rfl
  · rw [h.2.1]; rfl

/-- C4: the spec claims a list element that is a plain mapping with a
strict superset of the element schema's keys passes `resolve()` under a
non-strict element schema.  In the source the non-strict branch tests
`s1 in s0`, the membership of the full sorted key list `s1` (a `list`)
among the elements of `s0` (which are strings), so it never holds and
the walk falls through to `assert False`: the superset element
`{"name": "x", "extra": 1}` fails under the non-strict `Person` exactly
as it fails under the strict `PersonS` (second conjunct, which is the
half the claim states correctly), while the matching element
`{"name": "x"}` passes under strict mode (third conjunct). -/
theorem c4_code_bug :
    valueW tblC4 (.wListComplex (.list [.dict [("name", .str "x"), ("extra", .int 1)]])
        false false (some (.cls "Person")) false) = .error .assertionError ∧
    valueW tblC4 (.wListComplex (.list [.dict [("name", .str "x"), ("extra", .int 1)]])
        false false (some (.cls "PersonS")) false) = .error .assertionError ∧
    valueW tblC4 (.wListComplex (.list [.dict [("name", .str "x")]])
        false false (some (.cls "PersonS")) false) = .ok (.list [.dict [("name", .str "x")]]) := by
  have hcmp : ¬(['n', 'a', 'm', 'e'] ≤ ['e', 'x', 't', 'r', 'a']) := by decide
  refine ⟨?_, ?_, ?_⟩ <;>
    simp [valueW, truthyE, truthyPlain, listElemsCheck, isinstanceV, isVclsDataModel,
      constructFields, getCfg, List.lookup, tblC4, pysorted, pyinsert, pyMem,
      pybeq_str_list, hcmp]

/-- C2: the deep-copy isolation invariant is violated by `load_db_data`.
With the ordinary nested-instance schema `{"child": D()}`, loading the
document `{"child": {"x": 5}}` into an instance of `C` executes
`v.load_db_data(...)` on the class-level descriptor `v` itself and stores
the returned shared object: the walk mutates state observable through the
shared class-level schema mapping — `C.DATA_DEFAULT_FORMAT["child"].x`
changes from `0` to `5` (first two conjuncts: the schema entry before and
after), while the load reports no error and the instance field aliases
the mutated descriptor (last conjuncts). -/
theorem c2_code_bug :
    List.lookup "child" (getCfg tblLoad "C").schema = some (.record "D" [("x", .int 0)]) ∧
    List.lookup "child"
        (getCfg (loadDbData tblLoad "C" [("child", .record "D" [("x", .int 0)])]
          (.dict [("child", .dict [("x", .int 5)])]) false).1 "C").schema =
      some (.record "D" [("x", .int 5)]) ∧
    (loadDbData tblLoad "C" [("child", .record "D" [("x", .int 0)])]
        (.dict [("child", .dict [("x", .int 5)])]) false).2.2 = Option.none ∧
    (loadDbData tblLoad "C" [("child", .record "D" [("x", .int 0)])]
        (.dict [("child", .dict [("x", .int 5)])]) false).2.1 =
      [("child", .record "D" [("x", .int 5)])] := by
  refine ⟨rfl, ?_, ?_, ?_⟩ <;>
    simp [loadDbData, loadItems, getCfg, List.lookup, tblLoad, mgdbAnc, pysetattr,
      pysetattrD, setSchemaVal, setVal, typeOf, isNoneV, defaultCfg]

/-- C7 counterexample: the claim promises a fresh instance for *every*
nested-record type reference, but `v is BaseMGDBDataModel` is an identity
test against the base class only.  For the proper-subclass type reference
`ChildMG` the load takes the raw-copy branch, whose assignment the
dispatch silently drops (the descriptor is a type the raw mapping is not
an instance of): the table, the instance fields and the error slot are
all returned unchanged — no `ChildMG` instance is constructed or
loaded. -/
theorem c7_counterexample :
    loadDbData tblLoad "P" [("child", .typeRef (.cls "ChildMG"))]
        (.dict [("child", .dict [("x", .int 5)])]) false =
      (tblLoad, [("child", .typeRef (.cls "ChildMG"))], Option.none) := by
  simp [loadDbData, loadItems, getCfg, List.lookup, tblLoad, mgdbAnc, pysetattr,
    pysetattrD, setVal, typeOf, isNoneV, typeRefMatch, isinstanceV, isDictV, isLim,
    stored?, isWrapperAny, defaultCfg]

/-- C7 amended: only the type reference that is the base class
`BaseMGDBDataModel` itself triggers the fresh-construct-and-load branch;
the fresh instance has the base class's empty schema, so the recursive
load consumes any sub-document vacuously, and the field is set to the
fresh (empty) instance.  A proper-subclass type reference instead falls
to the raw-copy branch, which the dispatch silently drops (see the
counterexample). -/
theorem c7_amended (sub : List (String × PyVal)) :
    loadDbData tblLoad "Q" [("child", .typeRef (.cls "BaseMGDBDataModel"))]
        (.dict [("child", .dict sub)]) false =
      (tblLoad, [("child", .record "BaseMGDBDataModel" [])], Option.none) := by
  simp [loadDbData, loadItems, getCfg, List.lookup, tblLoad, mgdbAnc, pysetattr,
    pysetattrD, setVal, typeOf, isNoneV, typeRefMatch, isinstanceV, constructFields,
    defaultCfg, pure, Except.pure]

/-- C5 counterexample: the claim says a comparison target that omits
exactly the ignored keys does not fail the key-set check.  In the source
the record branch asserts
`sorted(a.__dict__.keys()) == sorted(b.keys())` before consulting
`EQUALS_IGNORE_KEYS` at all, so the target `{"a": 1}` — which omits only
the ignored key `t` — fails the key-set assertion. -/
theorem c5_counterexample :
    pyequals tblC5 "R" [("a", .int 1), ("t", .int 2)] (.dict [("a", .int 1)]) =
      .error .assertionError := by
  have hcmp : (['a'] ≤ ['t']) = True := by decide
  simp [pyequals, eqRec, tblC5, pysorted, pyinsert, hcmp]

/-- C5 amended: the key-set equality check includes the ignored keys —
the target must contain every field of the record, ignore-list included —
and the ignore-list instead exempts the ignored keys' values from the
recursive comparison: with both keys present, the result is independent
of the value the target carries at the ignored key `t` (any `tv`,
wrapper-free or not, first two conjuncts), while recursion still
proceeds per remaining key (a mismatch at `a` yields `False`, second
conjunct). -/
theorem c5_amended (tv : PyVal) :
    pyequals tblC5 "R" [("a", .int 1), ("t", .int 2)]
      (.dict [("a", .int 1), ("t", tv)]) = .ok true ∧
    pyequals tblC5 "R" [("a", .int 1), ("t", .int 2)]
      (.dict [("a", .int 7), ("t", tv)]) = .ok false := by
  have hcmp : (['a'] ≤ ['t']) = True := by decide
  refine ⟨?_, ?_⟩ <;>
    simp [pyequals, eqRec, eqRecFields, tblC5, getCfg, List.lookup, pysorted, pyinsert,
      typeOf, pybeq_int, hcmp, defaultCfg, bind, Except.bind, pure, Except.pure]

theorem fromSelf_append (k x : String) (h : FromSelf k) : FromSelf (k ++ x) := by
  obtain ⟨s, hs⟩ := h
  exact ⟨s ++ x, by rw [hs, String.append_assoc]⟩

theorem lookup_none_of_ne {β : Type} (l : List (String × β)) (k : String)
    (h : ∀ p ∈ l, p.1 ≠ k) : List.lookup k l = Option.none := by
  induction l with
  | nil => rfl
  | cons p rest ih =>
    obtain ⟨a, b⟩ := p
    have hp : a ≠ k := h (a, b) (by simp)
    have hbeq : (k == a) = false := by
      simp only [beq_eq_false_iff_ne]
      exact fun hk => hp hk.symm
    simp only [List.lookup, hbeq]
    exact ih (fun q hq => h q (by simp [hq]))

theorem schema_lookup_none (tbl : ClassTable) (cls k : String)
    (H : NoSelfK tbl) (hk : FromSelf k) :
    List.lookup k (getCfg tbl cls).schema = Option.none := by
  obtain ⟨s, rfl⟩ := hk
  exact lookup_none_of_ne _ _ (fun p hp => H cls p hp s)

/-- At a leaf whose walk key collides with no schema key, the walk
resolves a `LimitedValueModel` value via `value()` and accepts anything
else, leaving the class table untouched. -/
theorem checkLeaf_no_collision (tbl : ClassTable) (cls k : String) (v : PyVal)
    (H : NoSelfK tbl) (hk : FromSelf k) :
    checkLeaf tbl cls k v =
      (tbl, if isLim v then optErr (valueW tbl v) else Option.none) := by
  rw [checkLeaf, schema_lookup_none tbl cls k H hk]
  split
  · next w heq => exact Option.noConfusion heq
  · split <;> rfl

/-- A wrapper-valued node at a non-colliding walk key is settled exactly
by its `value()` resolution, errors included, with no table mutation. -/
theorem checkValue_wrapper_settles (tbl : ClassTable) (cls k : String) (v : PyVal)
    (H : NoSelfK tbl) (hk : FromSelf k) (hw : isLim v = true) :
    checkValue tbl cls k v = (tbl, optErr (valueW tbl v)) := by
  have hleaf := checkLeaf_no_collision tbl cls k v H hk
  cases v <;> simp [isLim, stored?] at hw <;>
    simp [checkValue, hleaf, isLim, stored?]

mutual

theorem checkValue_nomut (tbl : ClassTable) (cls k : String) (v : PyVal)
    (H : NoSelfK tbl) (hk : FromSelf k) : (checkValue tbl cls k v).1 = tbl := by
  cases v with
  | typeRef c => rw [checkValue]
  | record c flds =>
    rw [checkValue]
    exact checkValueDict_nomut tbl c (k ++ "(" ++ c ++ ")") flds H
      (fromSelf_append _ _ (fromSelf_append _ _ (fromSelf_append _ _ hk)))
  | list xs =>
    rw [checkValue]
    exact checkValueList_nomut tbl cls k 0 xs H hk
  | dict kvs =>
    rw [checkValue]
    exact checkValueDict_nomut tbl cls k kvs H hk
  | int n => rw [checkValue, checkLeaf_no_collision tbl cls k _ H hk] <;> simp
  | str s => rw [checkValue, checkLeaf_no_collision tbl cls k _ H hk] <;> simp
  | bool b => rw [checkValue, checkLeaf_no_collision tbl cls k _ H hk] <;> simp
  | none => rw [checkValue, checkLeaf_no_collision tbl cls k _ H hk] <;> simp
  | wLimited d => rw [checkValue, checkLeaf_no_collision tbl cls k _ H hk] <;> simp
  | wComplex d r => rw [checkValue, checkLeaf_no_collision tbl cls k _ H hk] <;> simp
  | wNumberBetween d lo hi => rw [checkValue, checkLeaf_no_collision tbl cls k _ H hk] <;> simp
  | wListBetween d vl => rw [checkValue, checkLeaf_no_collision tbl cls k _ H hk] <;> simp
  | wListComplex d r ns vc sp => rw [checkValue, checkLeaf_no_collision tbl cls k _ H hk] <;> simp
  | wDbMarker => rw [checkValue, checkLeaf_no_collision tbl cls k _ H hk] <;> simp
termination_by sizeOf v

theorem checkValueList_nomut (tbl : ClassTable) (cls k : String) (i : Nat)
    (xs : List PyVal) (H : NoSelfK tbl) (hk : FromSelf k) :
    (checkValueList tbl cls k i xs).1 = tbl := by
  match xs with
  | [] => rw [checkValueList]
  | x :: rest =>
    have h1 := checkValue_nomut tbl cls (k ++ "[" ++ toString i ++ "]") x H
      (fromSelf_append _ _ (fromSelf_append _ _ (fromSelf_append _ _ hk)))
    rw [checkValueList]
    cases hres : checkValue tbl cls (k ++ "[" ++ toString i ++ "]") x with
    | mk tbl₁ e =>
      rw [hres] at h1
      cases e with
      | none =>
        simp only []
        rw [show tbl₁ = tbl from h1]
        exact checkValueList_nomut tbl cls k (i + 1) rest H hk
      | some err => exact h1
termination_by sizeOf xs

theorem checkValueDict_nomut (tbl : ClassTable) (cls k : String)
    (kvs : List (String × PyVal)) (H : NoSelfK tbl) (hk : FromSelf k) :
    (checkValueDict tbl cls k kvs).1 = tbl := by
  match kvs with
  | [] => rw [checkValueDict]
  | (f, v) :: rest =>
    have h1 := checkValue_nomut tbl cls (k ++ "." ++ f) v H
      (fromSelf_append _ _ (fromSelf_append _ _ hk))
    rw [checkValueDict]
    cases hres : checkValue tbl cls (k ++ "." ++ f) v with
    | mk tbl₁ e =>
      rw [hres] at h1
      cases e with
      | none =>
        simp only []
        rw [show tbl₁ = tbl from h1]
        exact checkValueDict_nomut tbl cls k rest H hk
      | some err => exact h1
termination_by sizeOf kvs

end

/-- If some entry of the dict being walked is a wrapper whose `value()`
fails, the whole walk reports an error (the one of that entry, or of an
earlier entry that failed first). -/
theorem checkValueDict_propagates (tbl : ClassTable) (cls k : String)
    (kvs : List (String × PyVal)) (H : NoSelfK tbl) (hk : FromSelf k)
    (f : String) (w : PyVal) (hmem : (f, w) ∈ kvs) (hw : isLim w = true)
    (herr : (optErr (valueW tbl w)).isSome = true) :
    ((checkValueDict tbl cls k kvs).2).isSome = true := by
  induction kvs with
  | nil => simp at hmem
  | cons p rest ih =>
    obtain ⟨f₀, v₀⟩ := p
    rw [checkValueDict]
    cases hres : checkValue tbl cls (k ++ "." ++ f₀) v₀ with
    | mk tbl₁ e =>
      cases e with
      | some err => simp
      | none =>
        have ht : tbl₁ = tbl := by
          have h1 := checkValue_nomut tbl cls (k ++ "." ++ f₀) v₀ H
            (fromSelf_append _ _ (fromSelf_append _ _ hk))
          rw [hres] at h1
          exact h1
        simp only []
        rw [ht]
        rcases List.mem_cons.mp hmem with hhead | htail
        · have hv : w = v₀ := congrArg Prod.snd hhead
          have hset := checkValue_wrapper_settles tbl cls (k ++ "." ++ f₀) v₀ H
            (fromSelf_append _ _ (fromSelf_append _ _ hk)) (hv ▸ hw)
          rw [hset] at hres
          have h2 : optErr (valueW tbl v₀) = Option.none := congrArg Prod.snd hres
          rw [hv, h2] at herr
          simp at herr
        · exact ih htail

/-- C1 counterexample: the walk key for field `x` is the composed string
`"self.x"`; because that string is itself a schema key of `X` bound to a
wrapper, `_check_value` takes its `apply` branch instead of resolving the
field's wrapper.  The field's wrapper is required-with-falsy-state, so
its `resolve()` fails (first conjunct) — yet `check` succeeds (second
conjunct): the resolve failure does not propagate, the field is not
settled by `resolve()`, and the walk has called `apply` on the
class-level wrapper at `"self.x"`, mutating the shared schema (third
conjunct). -/
theorem c1_counterexample :
    valueW tblC1x (.wComplex (.int 0) true) = .error .assertionError ∧
    (check tblC1x "X" fieldsC1x).2 = Option.none ∧
    List.lookup "self.x" (getCfg (check tblC1x "X" fieldsC1x).1 "X").schema =
      some (.wLimited (.wComplex (.int 0) true)) := by
  refine ⟨by simp [valueW, truthyE, truthyPlain]; rfl, ?_, ?_⟩ <;>
    simp [check, checkValueDict, checkValue, checkLeaf, getCfg, List.lookup, tblC1x,
      fieldsC1x, applyW, setSchemaVal, setVal, isWrapperAny, isLim, stored?, valueW,
      truthyE, truthyPlain, optErr, defaultCfg]

/-- C1 amended: provided no schema key of any class extends `"self"` —
so no composed walk key can collide with a schema key — the validate
walk leaves every class-level wrapper untouched (first conjunct: the
class table is returned unchanged, hence no apply-style mutation on any
wrapper), settles every wrapper-valued node by calling its `value()`
resolution with the resolve error as the verdict (second conjunct), and
any wrapper field whose resolve fails makes the whole validation fail
(third conjunct). -/
theorem c1_amended (tbl : ClassTable) (cls : String) (fields : Fields)
    (H : NoSelfK tbl) :
    (check tbl cls fields).1 = tbl ∧
    (∀ k w, FromSelf k → isLim w = true →
        checkValue tbl cls k w = (tbl, optErr (valueW tbl w))) ∧
    (∀ f w, (f, w) ∈ fields → isLim w = true →
        (optErr (valueW tbl w)).isSome = true →
        ((check tbl cls fields).2).isSome = true) := by
  have hself : FromSelf "self" := ⟨"", by rw [String.append_empty]⟩
  exact ⟨checkValueDict_nomut tbl cls "self" fields H hself,
    fun k w hk hw => checkValue_wrapper_settles tbl cls k w H hk hw,
    fun f w hmem hw herr =>
      checkValueDict_propagates tbl cls "self" fields H hself f w hmem hw herr⟩

/-- C1 witness: on the ordinary class `M` (schema key `"x"`, no key
extending `"self"`), validating an instance whose field `x` holds a
required-falsy wrapper keeps the class table unchanged, settles the
field by its failing `resolve()`, and fails overall. -/
theorem c1_amended_witness :
    (check tblC1m "M" fieldsC1m).1 = tblC1m ∧
    checkValue tblC1m "M" "self.x" (.wComplex (.int 0) true) =
      (tblC1m, some .assertionError) ∧
    ((check tblC1m "M" fieldsC1m).2).isSome = true := by
  have hval : valueW tblC1m (.wComplex (.int 0) true) = .error .assertionError := by
    simp [valueW, truthyE, truthyPlain]; rfl
  have H : NoSelfK tblC1m := by
    intro c p hp s heq
    by_cases hc : c = "M"
    · subst hc
      simp [getCfg, List.lookup, tblC1m] at hp
      rw [hp] at heq
      have heq2 : ("x" : String) = "self" ++ s := heq
      have hlen := congrArg String.length heq2
      rw [String.length_append] at hlen
      have h4 : ("self" : String).length = 4 := by decide
      have h1 : ("x" : String).length = 1 := by decide
      rw [h4, h1] at hlen
      omega
    · have hb : (c == "M") = false := by simp [hc]
      simp [getCfg, List.lookup, tblC1m, hb, defaultCfg] at hp
  have h := c1_amended tblC1m "M" fieldsC1m H
  refine ⟨h.1, ?_, ?_⟩
  · have h2 := h.2.1 "self.x" (.wComplex (.int 0) true) ⟨".x", by decide⟩ rfl
    rw [h2, hval]
    rfl
  · exact h.2.2 "x" (.wComplex (.int 0) true) (by simp [fieldsC1m]) rfl
      (by rw [hval]; rfl)

end Amoer
